import Mathlib

/-
Verification of the Top Prop Picks aggregation/projection pipeline
(src/app.py) against its natural-language specification (spec.md).

Modelling conventions (shallow embedding):
* Python floats are modelled as exact rationals (ℚ).  All float claims in
  the spec are about exact decimal values and order relations, which the
  code computes by the same expression trees the spec states, so exact
  rational arithmetic is faithful for them.  Float NaN/inf do not occur in
  the fragments modelled; a pandas-NaN/None cell is modelled as `Option.none`.
* A pandas numeric Series with possible nulls is `List (Option ℚ)`.
* Python strings handled character by character are modelled as `List Char`
  so that the embedding computes inside the kernel.
* Network paging loops (cursor pagination against the balldontlie API) are
  modelled by handing the function the flattened list of records of all
  pages; the API itself is an external collaborator.
* A Python runtime exception is modelled as `Except.error`.
-/

namespace App

/-! ## Definitions -/

/-- `compute_hit_rate` (src/app.py:366-378).
`clean = series.dropna()`; empty → `(0.0, 0, 0)`;
`hits = (clean >= line_value).sum()`; `total = len(clean)`;
`hit_rate = hits / total if total > 0 else 0.0`. -/
def compute_hit_rate (series : List (Option ℚ)) (line_value : ℚ) : ℚ × ℕ × ℕ :=
  let clean := series.filterMap id
  if clean.isEmpty then (0, 0, 0)
  else
    let hits := clean.countP (fun v => line_value ≤ v)
    let total := clean.length
    let hit_rate := if 0 < total then (hits : ℚ) / (total : ℚ) else 0
    (hit_rate, hits, total)

/-- Spec-side rendering of §4.2 `hitRate(rows, field, line)`:
drop null values of the field first; if the remaining set is empty return
`(0,0,0)`; hits are counted as `value >= line` (inclusive); otherwise the
rate is `hits/total`. -/
def hitRate_spec (series : List (Option ℚ)) (line : ℚ) : ℚ × ℕ × ℕ :=
  let vals := series.filterMap id
  if vals = [] then (0, 0, 0)
  else (((vals.countP (fun v => line ≤ v) : ℕ) : ℚ) / (vals.length : ℚ),
        vals.countP (fun v => line ≤ v), vals.length)

/-- `simple_projection` (src/app.py:428-462): weighted blend of the three
averages, multiplied by a defensive adjustment factor that is `1.0` unless
`opp_def_rating > 0`. -/
def simple_projection (last10_avg season_avg home_away_avg opp_def_rating : ℚ) : ℚ :=
  let baseline := 0.5 * last10_avg + 0.3 * season_avg + 0.2 * home_away_avg
  let league_avg_points_allowed : ℚ := 114.0
  let adj_factor : ℚ :=
    if 0 < opp_def_rating then
      1 + ((league_avg_points_allowed - opp_def_rating) / league_avg_points_allowed) * 0.5
    else 1.0
  baseline * adj_factor

/-- Spec-side rendering of §4.4 `adjustmentFactor`: `1` if
`defensiveRating <= 0`, else `1 + ((leagueAverage - defensiveRating) /
leagueAverage) × k` with `leagueAverage = 114.0` and `k = 0.5`. -/
def adjustmentFactor_spec (defensiveRating : ℚ) : ℚ :=
  if defensiveRating ≤ 0 then 1
  else 1 + ((114.0 - defensiveRating) / 114.0) * 0.5

/-- A Python value as it reaches `_to_minutes`: `None` (or pandas NaN), a
string, or a number. -/
inductive PyVal where
  | none
  | str (s : List Char)
  | num (q : ℚ)
deriving DecidableEq

/-- Numeric value of a run of decimal digit characters. -/
def natOfDigits (cs : List Char) : ℕ :=
  cs.foldl (fun n c => 10 * n + (c.toNat - 48)) 0

/-- Python `str.split(sep)` for a one-character separator, on character
lists: splitting never returns an empty part list ("".split(":") == [""]). -/
def splitOnChar (sep : Char) : List Char → List (List Char)
  | [] => [[]]
  | c :: cs =>
    if c = sep then [] :: splitOnChar sep cs
    else
      match splitOnChar sep cs with
      | [] => [[c]]
      | h :: t => (c :: h) :: t

/-- The characters Python treats as whitespace in `str.strip()` and in the
prefix/suffix stripping of `float(str)`: ASCII control whitespace (TAB, LF,
VT, FF, CR, FS, GS, RS, US), space, NEL, NBSP, and the Unicode space
separators (OGHAM SPACE MARK, the EN/EM quads and spaces U+2000–U+200A, LINE
and PARAGRAPH SEPARATOR, NARROW NBSP, MEDIUM MATHEMATICAL SPACE, IDEOGRAPHIC
SPACE). -/
def pyWhitespace (c : Char) : Bool :=
  c.toNat ∈ [9, 10, 11, 12, 13, 28, 29, 30, 31, 32, 133, 160, 5760,
    8192, 8193, 8194, 8195, 8196, 8197, 8198, 8199, 8200, 8201, 8202,
    8232, 8233, 8239, 8287, 12288]

/-- Leading and trailing whitespace removal, as Python `str.strip()` and
`float(str)` apply before parsing. -/
def trimChars (cs : List Char) : List Char :=
  ((cs.dropWhile pyWhitespace).reverse.dropWhile pyWhitespace).reverse

/-- Sign factor of a trimmed numeral string. -/
def pySign (t : List Char) : ℚ := if t.head? = some '-' then -1 else 1

/-- Whether a trimmed numeral string carries a leading minus sign. -/
def isNegSign (t : List Char) : Bool := t.head? == some '-'

/-- A trimmed numeral string with any single leading sign removed. -/
def pyBody (t : List Char) : List Char :=
  if t.head? = some '-' ∨ t.head? = some '+' then t.drop 1 else t

/-- A Python float value as `float(str)` can produce it: NaN, a signed
infinity, or a finite value (exact rational in this model). -/
inductive PyFloat where
  | nan
  | inf (neg : Bool)
  | num (q : ℚ)
deriving DecidableEq

/-- `f >= 0` on Python floats: false for NaN (every comparison with NaN is
false), the sign for infinities, `0 ≤ q` for finite values. -/
def PyFloat.nonneg : PyFloat → Prop
  | .nan => False
  | .inf neg => neg = false
  | .num q => 0 ≤ q

/-- Division of a Python float by 60 (the seconds-to-minutes step). -/
def PyFloat.div60 : PyFloat → PyFloat
  | .nan => .nan
  | .inf b => .inf b
  | .num q => .num (q / 60)

/-- IEEE-style addition of two Python floats (exact on finite values in this
model): NaN propagates, opposite infinities give NaN. -/
def PyFloat.add : PyFloat → PyFloat → PyFloat
  | .nan, _ => .nan
  | _, .nan => .nan
  | .inf b1, .inf b2 => if b1 = b2 then .inf b1 else .nan
  | .inf b, .num _ => .inf b
  | .num _, .inf b => .inf b
  | .num q1, .num q2 => .num (q1 + q2)

/-- Whether the sign-stripped body spells an infinity, case-insensitively
(`float` accepts `inf` and `infinity`). -/
def isInfStr (t : List Char) : Bool :=
  (pyBody t).map Char.toLower == ['i', 'n', 'f']
  || (pyBody t).map Char.toLower == ['i', 'n', 'f', 'i', 'n', 'i', 't', 'y']

/-- Whether the sign-stripped body spells NaN, case-insensitively. -/
def isNanStr (t : List Char) : Bool :=
  (pyBody t).map Char.toLower == ['n', 'a', 'n']

/-- Modelled from the Python builtin `float(str)`: strip whitespace, read an
optional sign, then `inf`/`infinity`/`nan` (case-insensitive) or a decimal
numeral — digits with at most one decimal point and at least one digit
overall.  `Option.none` models `ValueError`.  Exponent suffixes, digit-group
underscores and non-ASCII decimal digits, which `float` also accepts, are not
modelled (such strings land on the `ValueError` branch here); none of them
can affect the sign or NaN-ness of the parsed value — a parse is negative or
NaN only via a leading `-` or a `nan` spelling — which is all the theorems
about this parser rely on. -/
def pyFloat? (s : List Char) : Option PyFloat :=
  if isInfStr (trimChars s) then some (.inf (isNegSign (trimChars s)))
  else if isNanStr (trimChars s) then some .nan
  else
    match splitOnChar '.' (pyBody (trimChars s)) with
    | [a] =>
        if a ≠ [] ∧ a.all Char.isDigit then
          some (.num (pySign (trimChars s) * natOfDigits a))
        else Option.none
    | [a, b] =>
        if (a ≠ [] ∨ b ≠ []) ∧ a.all Char.isDigit ∧ b.all Char.isDigit then
          some (.num (pySign (trimChars s) *
            ((natOfDigits a : ℚ) + (natOfDigits b : ℚ) / 10 ^ b.length)))
        else Option.none
    | _ => Option.none

/-- `_to_minutes` (src/app.py:344-360), the minutes normalizer applied to
the `min` column: `None`/`""`/NaN-input → `0.0`; numbers pass through
`float`; `"MM:SS"` strings become `float(MM) + float(SS)/60`; a `ValueError`
in either conversion → `0.0`.  The result is a Python float, so a string
such as `"nan"` converts to NaN and is returned as such. -/
def _to_minutes (x : PyVal) : PyFloat :=
  match x with
  | .none => .num 0
  | .num q => .num q
  | .str s =>
      if s = [] then .num 0
      else if s.contains ':' then
        match splitOnChar ':' s with
        | p0 :: p1 :: _ =>
            match pyFloat? p0, pyFloat? p1 with
            | some a, some b => a.add b.div60
            | _, _ => .num 0
        | _ => .num 0
      else
        match pyFloat? s with
        | some v => v
        | _ => .num 0

/-- Inputs on which the minutes normalizer is claimed non-negative, after
amendment: `None`, non-negative numbers, and strings none of whose
colon-separated components begins (after whitespace stripping) with a minus
sign or spells NaN (case-insensitively, allowing one leading `+`). -/
def nonNegInput : PyVal → Prop
  | .none => True
  | .num q => 0 ≤ q
  | .str s => ∀ p ∈ splitOnChar ':' s,
      (trimChars p).head? ≠ some '-' ∧ ¬ isNanStr (trimChars p)

/-- The averaging pattern of `run_analysis` (src/app.py:666, 671, 693, 704):
`series.mean() if not series.empty else 0.0`, where pandas `mean()` skips
nulls and yields NaN when no non-null values remain.  `Option.none` models
the NaN result. -/
def run_analysis_avg (series : List (Option ℚ)) : Option ℚ :=
  if series.isEmpty then some 0
  else
    let clean := series.filterMap id
    if clean.isEmpty then Option.none
    else some (clean.sum / (clean.length : ℚ))

/-- A JSON field of a game record as `dict.get` sees it: the key can be
absent, present with `null`, or present with an integer. -/
inductive JField where
  | absent
  | null
  | val (n : ℤ)
deriving DecidableEq

/-- Python `g.get(key, 0)`: the default `0` replaces an absent key but NOT a
present `null`; the `Option.none` result is the Python `None` that makes a
later `+=` raise `TypeError`. -/
def JField.getOr (f : JField) (d : ℤ) : Option ℤ :=
  match f with
  | .absent => some d
  | .null => Option.none
  | .val n => some n

/-- A game record returned by the `/games` endpoint, restricted to the fields
`get_team_defensive_rating` reads.  `Option` fields model `g.get(k)` (absent
and null are indistinguishable there); the score fields keep the three-way
distinction because they are read with `g.get(k, 0)`. -/
structure Game where
  status : Option String
  home_team_id : Option ℤ
  visitor_team_id : Option ℤ
  home_team_score : JField
  visitor_team_score : JField
deriving DecidableEq

/-- One iteration of the accumulation loop of `get_team_defensive_rating`
(src/app.py:286-293) over `(total_points_allowed, count)`: skip non-"Final"
games; add the opponent-of-the-team score via `g.get(score, 0)`; `count`
increments for every "Final" game regardless of which branch ran. -/
def defRatingStep (opponent_team_id : ℤ) (tc : ℤ × ℕ) (g : Game) :
    Except String (ℤ × ℕ) :=
  if g.status ≠ some "Final" then .ok tc
  else if g.home_team_id = some opponent_team_id then
    match g.visitor_team_score.getOr 0 with
    | some n => .ok (tc.1 + n, tc.2 + 1)
    | Option.none => .error "TypeError: unsupported operand types for +="
  else if g.visitor_team_id = some opponent_team_id then
    match g.home_team_score.getOr 0 with
    | some n => .ok (tc.1 + n, tc.2 + 1)
    | Option.none => .error "TypeError: unsupported operand types for +="
  else .ok (tc.1, tc.2 + 1)

/-- `get_team_defensive_rating` (src/app.py:234-298).  The cursor-paging loop
is modelled by `games`, the flattened list of all game records the API
returned for the requested season and end date; the function keeps those
involving the opponent and averages points allowed over status-"Final" games.
`Except.error` models a raised `TypeError`. -/
def get_team_defensive_rating (opponent_team_id : ℤ) (games : List Game) :
    Except String ℚ :=
  let all_games := games.filter (fun g =>
    g.home_team_id = some opponent_team_id ∨ g.visitor_team_id = some opponent_team_id)
  if all_games.isEmpty then .ok 0
  else do
    let tc ← all_games.foldlM (defRatingStep opponent_team_id) ((0 : ℤ), (0 : ℕ))
    if tc.2 = 0 then pure 0 else pure ((tc.1 : ℚ) / (tc.2 : ℚ))

/-- The integer stored in a present score field (junk elsewhere; only applied
under a presence guard). -/
def JField.scoreVal : JField → ℤ
  | .val n => n
  | _ => 0

/-- Spec-side §3/§4.3: a "qualifying game" has status completed, both team
identifiers present, and both final scores present (non-null); here also
restricted to games involving the opponent. -/
def qualifying_spec (opponent_team_id : ℤ) (g : Game) : Bool :=
  decide ((g.home_team_id = some opponent_team_id
      ∨ g.visitor_team_id = some opponent_team_id)
    ∧ g.status = some "Final"
    ∧ g.home_team_id ≠ Option.none ∧ g.visitor_team_id ≠ Option.none)
  && (match g.home_team_score with | .val _ => true | _ => false)
  && (match g.visitor_team_score with | .val _ => true | _ => false)

/-- Spec-side: points allowed in a game — the visitor's score when the team
was home, else the home score. -/
def allowed_points_spec (opponent_team_id : ℤ) (g : Game) : ℤ :=
  if g.home_team_id = some opponent_team_id then g.visitor_team_score.scoreVal
  else g.home_team_score.scoreVal

/-- Spec-side rendering of C3: arithmetic mean of points allowed over
qualifying games, `0.0` when there are none. -/
def defensive_rating_spec (opponent_team_id : ℤ) (games : List Game) : ℚ :=
  let qual := games.filter (qualifying_spec opponent_team_id)
  if qual = [] then 0
  else ((qual.map (allowed_points_spec opponent_team_id)).sum : ℚ) / (qual.length : ℚ)

/-- Points allowed as the code reads them: `g.get(score, 0)` with an absent
key counting 0 (only meaningful when the score is not a present `null`). -/
def allowed_points_getOr0 (opponent_team_id : ℤ) (g : Game) : ℤ :=
  if g.home_team_id = some opponent_team_id then (g.visitor_team_score.getOr 0).getD 0
  else if g.visitor_team_id = some opponent_team_id then (g.home_team_score.getOr 0).getD 0
  else 0

/-- C3 as amended: mean over status-"Final" games involving the team, where
an absent score field contributes 0 points and every "Final" game counts in
the denominator; `0.0` when no "Final" game involves the team. -/
def defensive_rating_code_spec (opponent_team_id : ℤ) (games : List Game) : ℚ :=
  let fin := (games.filter (fun g =>
      g.home_team_id = some opponent_team_id
      ∨ g.visitor_team_id = some opponent_team_id)).filter
    (fun g => g.status = some "Final")
  if fin = [] then 0
  else ((fin.map (allowed_points_getOr0 opponent_team_id)).sum : ℚ) / (fin.length : ℚ)

/-- The pure accumulation step the code's loop performs when no score field
is a present `null`. -/
def pureStep (opponent_team_id : ℤ) (tc : ℤ × ℕ) (g : Game) : ℤ × ℕ :=
  if g.status = some "Final" then
    (tc.1 + allowed_points_getOr0 opponent_team_id g, tc.2 + 1)
  else tc

/-- A game with status "Final", both ids and both scores present. -/
def gScored : Game :=
  { status := some "Final", home_team_id := some 7, visitor_team_id := some 8,
    home_team_score := .val 100, visitor_team_score := .val 20 }

/-- A "Final" game whose visitor score key is absent from the record. -/
def gMissing : Game :=
  { status := some "Final", home_team_id := some 7, visitor_team_id := some 8,
    home_team_score := .val 90, visitor_team_score := .absent }

/-- A "Final" game whose visitor score is present but `null`. -/
def gNull : Game :=
  { status := some "Final", home_team_id := some 7, visitor_team_id := some 8,
    home_team_score := .val 90, visitor_team_score := .null }

/-- A player record returned by the `/players` endpoint, restricted to the
fields `get_active_players` reads; `id` stands for the rest of the record so
that distinct API records stay distinct.  Names are `Option` because the code
reads them with `p.get(k, "")`. -/
structure Player where
  id : ℤ
  first_name : Option String
  last_name : Option String
deriving DecidableEq

/-- The dedup key of `get_active_players`:
`(p.get("first_name", "").strip(), p.get("last_name", "").strip())`. -/
def playerKey (p : Player) : List Char × List Char :=
  (trimChars (p.first_name.getD "").data, trimChars (p.last_name.getD "").data)

/-- The insertion-ordered dict build of `get_active_players` (src/app.py:82-87):
keep the first record for each key, preserving encounter order. -/
def uniqueByName : List Player → List Player
  | [] => []
  | p :: ps => p :: uniqueByName (ps.filter (fun q => playerKey q ≠ playerKey p))
termination_by l => l.length
decreasing_by
  simp only [List.length_cons]
  exact Nat.lt_succ_of_le (List.length_filter_le _ ps)

/-- `get_active_players` (src/app.py:68-87).  The API response is passed as
`resp`, the `data` list of the `/players` call; an empty search term
short-circuits to `[]` before any request is made, so for it the result is
`[]` whatever the response would have been. -/
def get_active_players (search_term : String) (resp : List Player) : List Player :=
  if search_term = "" then []
  else uniqueByName resp

/-- A cell of the saved-props ledger: a string, a number, or a null/NaN. -/
inductive CellVal where
  | vstr (s : String)
  | vnum (q : ℚ)
  | vnull
deriving DecidableEq

/-- pandas `isna` on a cell. -/
def CellVal.isna : CellVal → Bool
  | .vnull => true
  | _ => false

/-- A ledger row: cells by column name. -/
abbrev Row := List (String × CellVal)

/-- Reading a cell of a row, as `row.get(key)` on a pandas row: a column the
row does not carry reads as null. -/
def rowGet (r : Row) (c : String) : CellVal :=
  match r.find? (fun kv => kv.1 == c) with
  | some kv => kv.2
  | Option.none => .vnull

/-- Writing one cell of a row, as `df.at[idx, col] = v`. -/
def rowSet (r : Row) (c : String) (v : CellVal) : Row :=
  (c, v) :: r.filter (fun kv => kv.1 ≠ c)

/-- A pandas DataFrame as the ledger code uses it: the column list and the
rows. -/
structure Ledger where
  cols : List String
  rows : List Row
deriving DecidableEq

/-- `STAT_FIELD_MAP` (src/app.py:38-47). -/
def STAT_FIELD_MAP : List (String × String) :=
  [("Points", "pts"), ("Rebounds", "reb"), ("Assists", "ast"), ("Threes Made", "fg3m"),
   ("Steals", "stl"), ("Blocks", "blk"), ("Turnovers", "turnover"), ("Minutes", "min")]

/-- `STAT_FIELD_MAP.get(stat)`: `None` for a non-string or unknown stat. -/
def statField? (stat : CellVal) : Option String :=
  match stat with
  | .vstr s => (STAT_FIELD_MAP.find? (fun kv => kv.1 == s)).map Prod.snd
  | _ => Option.none

/-- The expected header of `saved_props.csv` (src/app.py:470-489). -/
def SAVED_PROPS_COLUMNS : List String :=
  ["timestamp", "player_id", "player_name", "team_abbr", "stat", "line", "odds",
   "last10_display", "season_display", "vs_opponent_display", "home_away_display",
   "opp_def_rating", "projection", "game_id", "game_date", "outcome"]

/-- The on-disk state of `saved_props.csv` as `load_saved_props` can find it. -/
inductive FileState where
  | absent
  | unparseable
  | parsed (df : Ledger)

/-- `load_saved_props` (src/app.py:468-494): a missing file yields an empty
frame carrying the full expected column list; an unreadable file yields
`pd.DataFrame()` (no columns, no rows); a parseable file is returned as-is —
missing columns are NOT added. -/
def load_saved_props (fs : FileState) : Ledger :=
  match fs with
  | .absent => ⟨SAVED_PROPS_COLUMNS, []⟩
  | .unparseable => ⟨[], []⟩
  | .parsed df => df

/-- Python numeric coercion of a cell (`float(v)`, and `int(v)` for the ids,
modelled with the same decimal parser; ids and lines in a parsed CSV are
numeric cells, for which the two agree, and never the non-finite numeral
strings `nan`/`inf`, which are treated as the `ValueError` branch here). -/
def toFloatE (v : CellVal) : Except String ℚ :=
  match v with
  | .vnum q => .ok q
  | .vstr s =>
      match pyFloat? s.data with
      | some (.num q) => .ok q
      | _ => .error "ValueError"
  | .vnull => .error "TypeError"

/-- The body of the `update_outcomes` loop (src/app.py:510-534) for one row.
`fetchStats` is the external boundary: the composition of
`get_player_stats(player, game_ids=[game])` with `stats_list_to_df`; `none`
models "no stats returned" (`if not stats: continue`), and a returned
function gives the first stat row's value per field (`none` there models a
value on which `float` raises).  When stats are returned,
`stats_list_to_df` always carries all eight stat columns, so the
`field not in df_stats.columns` guard cannot fire and is absorbed into the
`statField?` check. -/
def processRow (fetchStats : ℚ → ℚ → Option (String → Option ℚ)) (r : Row) :
    Except String Row :=
  if rowGet r "outcome" ≠ CellVal.vstr "Pending" then .ok r
  else if (rowGet r "game_id").isna ∨ (rowGet r "player_id").isna
      ∨ (rowGet r "line").isna then .ok r
  else do
    let pid ← toFloatE (rowGet r "player_id")
    let gid ← toFloatE (rowGet r "game_id")
    match fetchStats pid gid with
    | Option.none => .ok r
    | some stats =>
      match statField? (rowGet r "stat") with
      | Option.none => .ok r
      | some field =>
        match stats field with
        | Option.none => .error "TypeError: float() of a null stat value"
        | some final_value => do
            let lineq ← toFloatE (rowGet r "line")
            .ok (rowSet r "outcome"
              (CellVal.vstr
                (if lineq ≤ final_value then "Line Achieved" else "Line Not Achieved")))

/-- `update_outcomes` (src/app.py:501-536): empty frame returned unchanged;
otherwise `df[df["outcome"] == "Pending"]` is evaluated — a KeyError when the
frame has no `outcome` column; with no pending rows the frame is returned
unchanged; otherwise every pending row is resolved in order (a raised
exception aborts the whole pass, as in Python). -/
def update_outcomes (fetchStats : ℚ → ℚ → Option (String → Option ℚ))
    (df : Ledger) : Except String Ledger :=
  if df.rows.isEmpty then .ok df
  else if "outcome" ∉ df.cols then .error "KeyError: outcome"
  else if (df.rows.filter
      (fun r => rowGet r "outcome" == CellVal.vstr "Pending")).isEmpty then .ok df
  else do
    let rows ← df.rows.mapM (processRow fetchStats)
    .ok ⟨df.cols, rows⟩

/-- A one-row ledger written by an older version of the app, lacking the
`outcome` column. -/
def ledgerMissingOutcome : Ledger :=
  ⟨["player_id"], [[("player_id", CellVal.vnum 1)]]⟩

/-! ## Helper lemmas -/

/-- Helper: the code's hit-rate computation coincides with the spec-side one
(the `total > 0` guard in the code is redundant on the non-empty branch). -/
theorem compute_hit_rate_eval (s : List (Option ℚ)) (l : ℚ) :
    compute_hit_rate s l = hitRate_spec s l := by
  unfold compute_hit_rate hitRate_spec
  by_cases h : s.filterMap id = []
  · simp [h]
  · have hpos : 0 < (s.filterMap id).length := List.length_pos.mpr h
    simp [h, List.isEmpty_iff, hpos]

/-- Helper: splitting on a character absent from the list is the identity. -/
theorem splitOnChar_of_not_mem {sep : Char} {s : List Char} (h : sep ∉ s) :
    splitOnChar sep s = [s] := by
  induction s with
  | nil => rfl
  | cons c cs ih =>
      have hc : ¬ c = sep := fun hcs => h (hcs ▸ List.mem_cons_self c cs)
      unfold splitOnChar
      rw [if_neg hc, ih (fun hm => h (List.mem_cons_of_mem c hm))]

/-- Helper: the `float(str)` model yields a non-negative float on strings
that neither begin (after trimming) with a minus sign nor spell NaN. -/
theorem pyFloat?_nonneg {s : List Char} {v : PyFloat}
    (hs : (trimChars s).head? ≠ some '-') (hn : ¬ isNanStr (trimChars s))
    (hv : pyFloat? s = some v) : v.nonneg := by
  have hsign : pySign (trimChars s) = 1 := if_neg hs
  have hneg : isNegSign (trimChars s) = false := by
    simp [isNegSign, hs]
  unfold pyFloat? at hv
  by_cases hinf : isInfStr (trimChars s)
  · rw [if_pos hinf, hneg, Option.some.injEq] at hv
    subst hv
    simp [PyFloat.nonneg]
  · rw [if_neg hinf, if_neg hn] at hv
    split at hv
    · split at hv
      · rw [hsign, Option.some.injEq] at hv
        subst hv
        simp only [PyFloat.nonneg]
        positivity
      · exact absurd hv (by simp)
    · split at hv
      · rw [hsign, Option.some.injEq] at hv
        subst hv
        simp only [PyFloat.nonneg]
        positivity
      · exact absurd hv (by simp)
    · exact absurd hv (by simp)

/-- Helper: `a + b/60` on Python floats is non-negative when `a` and `b`
are. -/
theorem PyFloat.add_div60_nonneg {a b : PyFloat} (ha : a.nonneg) (hb : b.nonneg) :
    (a.add b.div60).nonneg := by
  cases a with
  | nan => exact ha.elim
  | inf bn =>
      cases b with
      | nan => exact hb.elim
      | inf bn2 =>
          simp only [PyFloat.nonneg] at ha hb
          subst ha; subst hb
          simp [PyFloat.add, PyFloat.div60, PyFloat.nonneg]
      | num q =>
          simp only [PyFloat.nonneg] at ha
          subst ha
          simp [PyFloat.add, PyFloat.div60, PyFloat.nonneg]
  | num q =>
      cases b with
      | nan => exact hb.elim
      | inf bn2 =>
          simp only [PyFloat.nonneg] at hb
          subst hb
          simp [PyFloat.add, PyFloat.div60, PyFloat.nonneg]
      | num q2 =>
          simp only [PyFloat.nonneg] at ha hb
          simp only [PyFloat.add, PyFloat.div60, PyFloat.nonneg]
          exact add_nonneg ha (div_nonneg hb (by norm_num))

/-- Helper: `_to_minutes` is non-negative on all `nonNegInput` values. -/
theorem to_minutes_nonneg_aux (x : PyVal) (h : nonNegInput x) :
    (_to_minutes x).nonneg := by
  cases x with
  | none => exact le_refl 0
  | num q => exact h
  | str s =>
      by_cases h0 : s = []
      · simp [_to_minutes, h0, PyFloat.nonneg]
      · by_cases hc : s.contains ':'
        · have hmem : (':' : Char) ∈ s := by simpa using hc
          cases hsp : splitOnChar ':' s with
          | nil => simp [_to_minutes, if_neg h0, hmem, hsp, PyFloat.nonneg]
          | cons p0 rest =>
              cases rest with
              | nil => simp [_to_minutes, if_neg h0, hmem, hsp, PyFloat.nonneg]
              | cons p1 rest2 =>
                  have hp0 := h p0 (by rw [hsp]; exact List.mem_cons_self p0 _)
                  have hp1 := h p1 (by
                    rw [hsp]; exact List.mem_cons_of_mem p0 (List.mem_cons_self p1 _))
                  simp only [_to_minutes, if_neg h0, hc, if_true, hsp]
                  cases hf0 : pyFloat? p0 with
                  | none => simp [PyFloat.nonneg]
                  | some a =>
                      cases hf1 : pyFloat? p1 with
                      | none => simp [PyFloat.nonneg]
                      | some b =>
                          simp only []
                          exact PyFloat.add_div60_nonneg
                            (pyFloat?_nonneg hp0.1 hp0.2 hf0)
                            (pyFloat?_nonneg hp1.1 hp1.2 hf1)
        · have hmem : (':' : Char) ∉ s := by simpa using hc
          have hsp : splitOnChar ':' s = [s] := splitOnChar_of_not_mem hmem
          have hself := h s (by rw [hsp]; exact List.mem_cons_self s _)
          simp only [_to_minutes, if_neg h0, hc, Bool.false_eq_true, if_false]
          cases hf : pyFloat? s with
          | none => simp [PyFloat.nonneg]
          | some v => simpa using pyFloat?_nonneg hself.1 hself.2 hf

/-- Fidelity check of the minutes model: the string `"nan"` passes through
`float` to NaN, which is not a non-negative float. -/
theorem to_minutes_nan_eval :
    _to_minutes (.str "nan".data) = .nan ∧ ¬ (PyFloat.nan).nonneg :=
  ⟨rfl, fun hf => hf⟩

/-- Fidelity check of the minutes model: a minus sign hidden behind a
vertical-tab character (whitespace for `float`, so stripped) still yields a
negative value. -/
theorem to_minutes_hidden_minus_eval :
    _to_minutes (.str "\x0b-5".data) = .num ((-1 : ℚ) * ((5 : ℕ) : ℚ)) := rfl

/-- Helper: bind of a successful `Except` computation reduces. -/
theorem except_ok_bind {α β ε : Type} (a : α) (f : α → Except ε β) :
    (Except.ok a >>= f) = f a := rfl

/-- Helper: when neither score field of `g` is a present `null`, the code's
loop step succeeds and acts as the pure step. -/
theorem defRatingStep_ok (opp : ℤ) (tc : ℤ × ℕ) (g : Game)
    (hh : g.home_team_score ≠ .null) (hv : g.visitor_team_score ≠ .null) :
    defRatingStep opp tc g = .ok (pureStep opp tc g) := by
  by_cases hs : g.status = some "Final"
  · by_cases hh7 : g.home_team_id = some opp
    · cases hvs : g.visitor_team_score with
      | null => exact absurd hvs hv
      | absent =>
          simp [defRatingStep, pureStep, allowed_points_getOr0, hs, hh7, hvs, JField.getOr]
      | val n =>
          simp [defRatingStep, pureStep, allowed_points_getOr0, hs, hh7, hvs, JField.getOr]
    · by_cases hv7 : g.visitor_team_id = some opp
      · cases hhs : g.home_team_score with
        | null => exact absurd hhs hh
        | absent =>
            simp [defRatingStep, pureStep, allowed_points_getOr0, hs, hh7, hv7, hhs,
              JField.getOr]
        | val n =>
            simp [defRatingStep, pureStep, allowed_points_getOr0, hs, hh7, hv7, hhs,
              JField.getOr]
      · simp [defRatingStep, pureStep, allowed_points_getOr0, hs, hh7, hv7]
  · simp [defRatingStep, pureStep, hs]

/-- Helper: the code's effectful fold succeeds and equals the pure fold when
no score field in the list is a present `null`. -/
theorem foldlM_defRatingStep_ok (opp : ℤ) (l : List Game)
    (h : ∀ g ∈ l, g.home_team_score ≠ .null ∧ g.visitor_team_score ≠ .null) :
    ∀ tc : ℤ × ℕ, l.foldlM (defRatingStep opp) tc = .ok (l.foldl (pureStep opp) tc) := by
  induction l with
  | nil => intro tc; rfl
  | cons g l ih =>
      intro tc
      have hg := h g (List.mem_cons_self g l)
      have ih' := ih (fun g' hg' => h g' (List.mem_cons_of_mem g hg'))
      rw [List.foldlM_cons, defRatingStep_ok opp tc g hg.1 hg.2, except_ok_bind,
        List.foldl_cons]
      exact ih' (pureStep opp tc g)

/-- Helper: the pure fold accumulates the sum of allowed points and the count
of the status-"Final" games. -/
theorem foldl_pureStep_eval (opp : ℤ) (l : List Game) :
    ∀ t : ℤ, ∀ c : ℕ, l.foldl (pureStep opp) (t, c)
      = (t + ((l.filter (fun g => g.status = some "Final")).map
            (allowed_points_getOr0 opp)).sum,
         c + (l.filter (fun g => g.status = some "Final")).length) := by
  induction l with
  | nil => intro t c; simp
  | cons g l ih =>
      intro t c
      by_cases hg : g.status = some "Final"
      · rw [List.foldl_cons]
        simp only [pureStep, if_pos hg]
        rw [ih]
        rw [List.filter_cons, if_pos (decide_eq_true hg)]
        simp only [List.map_cons, List.sum_cons, List.length_cons, Prod.mk.injEq]
        constructor
        · ring
        · ring
      · rw [List.foldl_cons]
        simp only [pureStep, if_neg hg]
        rw [ih]
        rw [List.filter_cons, if_neg (by simpa using hg)]

/-- Helper: the dedup output is a sublist of the input (order preserved, no
invented records). -/
theorem uniqueByName_sublist (l : List Player) : (uniqueByName l).Sublist l := by
  induction l using uniqueByName.induct with
  | case1 => rw [uniqueByName]
  | case2 p ps ih =>
      rw [uniqueByName]
      exact (ih.trans (List.filter_sublist ps)).cons₂ p

/-- Helper: the dedup output carries pairwise-distinct keys. -/
theorem uniqueByName_pairwise (l : List Player) :
    (uniqueByName l).Pairwise (fun p q => playerKey p ≠ playerKey q) := by
  induction l using uniqueByName.induct with
  | case1 => rw [uniqueByName]; exact List.Pairwise.nil
  | case2 p ps ih =>
      rw [uniqueByName]
      refine List.Pairwise.cons ?_ ih
      intro q hq
      have hq' : q ∈ ps.filter (fun q => playerKey q ≠ playerKey p) :=
        (uniqueByName_sublist _).subset hq
      have hne := List.of_mem_filter hq'
      intro hkey
      exact (of_decide_eq_true hne) hkey.symm

/-- Helper: searching a filtered list equals searching the original when the
search predicate implies the retention predicate. -/
theorem find?_filter_of_imp {α : Type} (l : List α) (p r : α → Bool)
    (h : ∀ x, p x = true → r x = true) :
    (l.filter r).find? p = l.find? p := by
  induction l with
  | nil => rfl
  | cons a l ih =>
      by_cases hr : r a = true
      · rw [List.filter_cons, if_pos hr]
        by_cases hp : p a = true
        · rw [List.find?_cons_of_pos _ hp, List.find?_cons_of_pos _ hp]
        · rw [List.find?_cons_of_neg _ (by simpa using hp),
            List.find?_cons_of_neg _ (by simpa using hp), ih]
      · have hp : ¬ p a = true := fun hpa => hr (h a hpa)
        rw [List.filter_cons, if_neg hr, List.find?_cons_of_neg _ (by simpa using hp), ih]

/-- Helper: every record the dedup keeps is the first input record carrying
its key. -/
theorem uniqueByName_find? (l : List Player) :
    ∀ p ∈ uniqueByName l, l.find? (fun q => playerKey q == playerKey p) = some p := by
  induction l using uniqueByName.induct with
  | case1 => rw [uniqueByName]; intro p hp; cases hp
  | case2 p0 ps ih =>
      rw [uniqueByName]
      intro p hp
      rcases List.mem_cons.mp hp with rfl | hp'
      · rw [List.find?_cons_of_pos _ (by simp)]
      · have hmemf : p ∈ ps.filter (fun q => playerKey q ≠ playerKey p0) :=
          (uniqueByName_sublist _).subset hp'
        have hne : playerKey p ≠ playerKey p0 :=
          of_decide_eq_true (List.mem_filter.mp hmemf).2
        rw [List.find?_cons_of_neg _ (by simp; exact fun h => hne h.symm)]
        rw [← find?_filter_of_imp ps (fun q => playerKey q == playerKey p)
            (fun q => playerKey q ≠ playerKey p0)
            (fun x hx => by
              simp at hx
              exact decide_eq_true (fun hc => hne (hx ▸ hc)))]
        exact ih p hp'

/-- Helper: the dedup drops no key — each input record's key survives. -/
theorem uniqueByName_complete (l : List Player) :
    ∀ q ∈ l, ∃ p ∈ uniqueByName l, playerKey p = playerKey q := by
  induction l using uniqueByName.induct with
  | case1 => intro q hq; cases hq
  | case2 p0 ps ih =>
      rw [uniqueByName]
      intro q hq
      by_cases hk : playerKey q = playerKey p0
      · exact ⟨p0, List.mem_cons_self _ _, hk.symm⟩
      · rcases List.mem_cons.mp hq with rfl | hq'
        · exact absurd rfl hk
        · have hqf : q ∈ ps.filter (fun r => playerKey r ≠ playerKey p0) :=
            List.mem_filter.mpr ⟨hq', decide_eq_true hk⟩
          obtain ⟨p, hp, hpk⟩ := ih q hqf
          exact ⟨p, List.mem_cons_of_mem _ hp, hpk⟩

/-! ## Claims -/

/-- C3 counterexample: with one fully-scored "Final" game (20 points allowed)
and one "Final" game whose visitor score key is absent, the code averages
over both games (absent score counted as 0), returning 10.0, while the
spec's mean over qualifying games is 20.0. -/
theorem def_rating_missing_score_cex :
    get_team_defensive_rating 7 [gScored, gMissing] = .ok 10
    ∧ defensive_rating_spec 7 [gScored, gMissing] = 20
    ∧ ((10 : ℚ) ≠ 20) := by
  refine ⟨?_, ?_, by norm_num⟩
  · have h : get_team_defensive_rating 7 [gScored, gMissing]
        = .ok (((20 : ℤ) : ℚ) / ((2 : ℕ) : ℚ)) := rfl
    rw [h]
    norm_num
  · have h : defensive_rating_spec 7 [gScored, gMissing]
        = (((20 : ℤ) : ℚ) / ((1 : ℕ) : ℚ)) := rfl
    rw [h]
    norm_num

/-- C3 (amended): provided no score field is a present `null` (otherwise the
code raises, see C4), the defensive rating is the mean of points allowed —
visitor score when the team was home, else home score, an absent score key
counting 0 — over ALL games with status "Final" involving the team (no
presence check on identifiers or scores), and is exactly 0.0 when there are
no such "Final" games. -/
theorem def_rating_amended (opp : ℤ) (games : List Game)
    (h : ∀ g ∈ games, g.home_team_score ≠ .null ∧ g.visitor_team_score ≠ .null) :
    get_team_defensive_rating opp games = .ok (defensive_rating_code_spec opp games) := by
  simp only [get_team_defensive_rating, defensive_rating_code_spec]
  set inv := games.filter (fun g =>
    g.home_team_id = some opp ∨ g.visitor_team_id = some opp) with hinv
  by_cases hi : inv.isEmpty
  · have hie : inv = [] := List.isEmpty_iff.mp hi
    simp [hi, hie]
  · have hsub : ∀ g ∈ inv, g.home_team_score ≠ .null ∧ g.visitor_team_score ≠ .null :=
      fun g hg => h g (List.mem_of_mem_filter hg)
    rw [if_neg hi]
    rw [foldlM_defRatingStep_ok opp inv hsub ((0 : ℤ), (0 : ℕ))]
    rw [except_ok_bind]
    rw [foldl_pureStep_eval opp inv 0 0]
    by_cases hf : inv.filter (fun g => g.status = some "Final") = []
    · simp [hf]
      rfl
    · have hlen : (inv.filter (fun g => g.status = some "Final")).length ≠ 0 := by
        simpa [List.length_eq_zero] using hf
      simp only [zero_add]
      rw [if_neg hlen, if_neg hf]
      rfl

/-- Witness for C3 (amended) at a concrete one-game list. -/
theorem def_rating_amended_witness :
    get_team_defensive_rating 7 [gScored] = .ok (defensive_rating_code_spec 7 [gScored]) :=
  def_rating_amended 7 [gScored] (by decide)

/-- C4: contrary to the claim, `get_team_defensive_rating` CAN raise: on a
"Final" game whose visitor score is present but `null`, the line
`total_points_allowed += g.get("visitor_team_score", 0)` adds `None` to an
int and raises `TypeError` instead of degrading to 0.0. -/
theorem def_rating_raises_on_null_score :
    get_team_defensive_rating 7 [gNull]
      = .error "TypeError: unsupported operand types for +=" := rfl

/-- C1: `compute_hit_rate` first drops null values of the field; hits are
counted inclusively as `value >= line`; and if no non-null values remain it
returns the zero-state triple `(0, 0, 0)` rather than failing — i.e. it
agrees with the spec's `hitRate` on every series and line. -/
theorem compute_hit_rate_matches_spec (s : List (Option ℚ)) (l : ℚ) :
    compute_hit_rate s l = hitRate_spec s l :=
  compute_hit_rate_eval s l

/-- C2: the projection equals `(0.5·last10 + 0.3·season + 0.2·context) ×
adjustmentFactor` with league average 114.0 and k = 0.5; and whenever the
defensive rating is ≤ 0 the factor is exactly 1, so the projection reduces
exactly to the unadjusted weighted blend. -/
theorem simple_projection_matches_spec (a b c r : ℚ) :
    simple_projection a b c r = (0.5 * a + 0.3 * b + 0.2 * c) * adjustmentFactor_spec r
    ∧ (r ≤ 0 → simple_projection a b c r = 0.5 * a + 0.3 * b + 0.2 * c) := by
  constructor
  · unfold simple_projection adjustmentFactor_spec
    by_cases h : r ≤ 0
    · simp only [if_pos h, if_neg (not_lt.mpr h)]
      norm_num
    · simp only [if_neg h, if_pos (lt_of_not_le h)]
  · intro h
    unfold simple_projection
    simp only [if_neg (not_lt.mpr h)]
    norm_num

/-- Witness for C2 at a concrete input with defensive rating 0. -/
theorem simple_projection_matches_spec_witness :
    simple_projection 10 20 30 0 = (0.5 * 10 + 0.3 * 20 + 0.2 * 30) * adjustmentFactor_spec 0
    ∧ simple_projection 10 20 30 0 = 0.5 * 10 + 0.3 * 20 + 0.2 * 30 :=
  ⟨(simple_projection_matches_spec 10 20 30 0).1,
   (simple_projection_matches_spec 10 20 30 0).2 (le_refl 0)⟩

/-- C5 counterexample: minutes normalization does NOT produce a float ≥ 0
for every input — the number `-5` passes through `float` unchanged and the
result is `-5.0 < 0`. -/
theorem to_minutes_negative_cex : ¬ (_to_minutes (.num (-5))).nonneg := by
  norm_num [_to_minutes, PyFloat.nonneg]

/-- C5 (amended): minutes normalization maps `"32:30"` to 32.5, the number
32 to 32.0, `None` and the empty string to 0.0, and the unparseable string
`"abc"` to 0.0; and the result is a float ≥ 0 for every input that is
`None`, a non-negative number, or a string none of whose colon-separated
components begins (after whitespace stripping) with a minus sign or spells
NaN.  (The original "for every input" fails: a negative number passes
through `float` unchanged; string inputs can likewise produce negative
values or NaN, e.g. `"-5"` and `"nan"`.) -/
theorem to_minutes_spec (x : PyVal) (h : nonNegInput x) :
    (_to_minutes x).nonneg
    ∧ _to_minutes (.str "32:30".data) = .num 32.5
    ∧ _to_minutes (.num 32) = .num 32
    ∧ _to_minutes .none = .num 0
    ∧ _to_minutes (.str "".data) = .num 0
    ∧ _to_minutes (.str "abc".data) = .num 0 := by
  refine ⟨to_minutes_nonneg_aux x h, ?_, rfl, rfl, rfl, rfl⟩
  have h32 : _to_minutes (.str "32:30".data)
      = .num ((1 : ℚ) * ((32 : ℕ) : ℚ) + ((1 : ℚ) * ((30 : ℕ) : ℚ)) / 60) := rfl
  rw [h32]
  norm_num

/-- Witness for C5 at the concrete input `None`. -/
theorem to_minutes_spec_witness :
    (_to_minutes .none).nonneg
    ∧ _to_minutes (.str "32:30".data) = .num 32.5
    ∧ _to_minutes (.num 32) = .num 32
    ∧ _to_minutes .none = .num 0
    ∧ _to_minutes (.str "".data) = .num 0
    ∧ _to_minutes (.str "abc".data) = .num 0 :=
  to_minutes_spec .none trivial

/-- C6 counterexample: the average of an empty split is the number `0.0`,
not the claimed NaN/undefined value. -/
theorem run_analysis_avg_empty_cex : run_analysis_avg [] ≠ Option.none := by
  simp [run_analysis_avg]

/-- C6 (amended): for a non-empty split the average is the mean of the
non-null values of the field, and is NaN/undefined when all values of a
non-empty split are null; but for an empty split the code substitutes the
number `0.0` instead of NaN. -/
theorem run_analysis_avg_spec (s : List (Option ℚ)) (h : ¬ s.isEmpty) :
    (s.filterMap id ≠ [] →
      run_analysis_avg s = some ((s.filterMap id).sum / ((s.filterMap id).length : ℚ)))
    ∧ (s.filterMap id = [] → run_analysis_avg s = Option.none)
    ∧ run_analysis_avg [] = some 0 := by
  refine ⟨?_, ?_, rfl⟩
  · intro hne
    simp [run_analysis_avg, h, List.isEmpty_iff, hne]
  · intro he
    simp [run_analysis_avg, h, List.isEmpty_iff, he]

/-- Witness for C6 at the concrete split `[some 1]`. -/
theorem run_analysis_avg_spec_witness :
    run_analysis_avg [some 1]
      = some ((([some 1] : List (Option ℚ)).filterMap id).sum
          / ((([some 1] : List (Option ℚ)).filterMap id).length : ℚ))
    ∧ run_analysis_avg [] = some 0 :=
  ⟨(run_analysis_avg_spec [some 1] (by simp)).1 (by simp),
   (run_analysis_avg_spec [some 1] (by simp)).2.2⟩

/-- C7 counterexample: on the series `[20, 25, 18, 30, 22]` with line `22`
the code does NOT return `(0.4, 2, 5)` — the value 22 itself counts as a hit
under the inclusive `>=`, so hits = 3, not 2. -/
theorem hit_rate_scenario_cex :
    compute_hit_rate [some 20, some 25, some 18, some 30, some 22] 22 ≠ (2/5, 2, 5) := by
  rw [compute_hit_rate_eval]
  simp only [hitRate_spec, List.filterMap_cons, id_eq, List.filterMap_nil]
  rw [if_neg (by simp)]
  norm_num

/-- C7 (amended): on the series `[20, 25, 18, 30, 22]` with line `22`,
`compute_hit_rate` returns hit rate `3/5 = 0.6`, hits 3, total 5. -/
theorem hit_rate_scenario :
    compute_hit_rate [some 20, some 25, some 18, some 30, some 22] 22 = (3/5, 3, 5) := by
  rw [compute_hit_rate_eval]
  simp only [hitRate_spec, List.filterMap_cons, id_eq, List.filterMap_nil]
  rw [if_neg (by simp)]
  norm_num

/-- C8: for a fixed series, the hit rate is monotonically non-increasing in
the line: if `l1 ≤ l2` the rate at `l2` is at most the rate at `l1`. -/
theorem hit_rate_antitone (s : List (Option ℚ)) (l1 l2 : ℚ) (h : l1 ≤ l2) :
    (compute_hit_rate s l2).1 ≤ (compute_hit_rate s l1).1 := by
  rw [compute_hit_rate_eval s l2, compute_hit_rate_eval s l1]
  unfold hitRate_spec
  by_cases he : s.filterMap id = []
  · simp [he]
  · have hcount : (s.filterMap id).countP (fun v => decide (l2 ≤ v))
        ≤ (s.filterMap id).countP (fun v => decide (l1 ≤ v)) :=
      List.countP_mono_left
        (fun x _ hx => decide_eq_true (le_trans h (of_decide_eq_true hx)))
    have hpos : (0 : ℚ) < ((s.filterMap id).length : ℚ) := by
      exact_mod_cast List.length_pos.mpr he
    simp only [he, ite_false]
    rw [div_le_div_iff₀ hpos hpos]
    exact mul_le_mul_of_nonneg_right (by exact_mod_cast hcount) (le_of_lt hpos)

/-- Witness for C8 at a concrete series and pair of lines. -/
theorem hit_rate_antitone_witness :
    (compute_hit_rate [some 1] 1).1 ≤ (compute_hit_rate [some 1] 0).1 :=
  hit_rate_antitone [some 1] 0 1 (by norm_num)

/-- C9 counterexample: a parseable pre-existing ledger file lacking the
`outcome` column loads as-is (the missing column is NOT added), and the
outcome-update pass then fails with a KeyError on its non-empty frame. -/
theorem update_outcomes_missing_column_cex :
    load_saved_props (.parsed ledgerMissingOutcome) = ledgerMissingOutcome
    ∧ update_outcomes (fun _ _ => Option.none) ledgerMissingOutcome
        = .error "KeyError: outcome" :=
  ⟨rfl, rfl⟩

/-- C9 (amended): loading never fails — an unparseable ledger file is treated
as an empty ledger (on which the outcome-update pass succeeds unchanged), and
a missing file yields an empty ledger with the full expected column list
(likewise safe); but a pre-existing parseable file missing the `outcome`
column does NOT have it treated as empty: once any row exists, the
outcome-update pass raises a KeyError on it. -/
theorem load_saved_props_amended (L : Ledger)
    (f : ℚ → ℚ → Option (String → Option ℚ))
    (h1 : L.rows ≠ []) (h2 : "outcome" ∉ L.cols) :
    update_outcomes f L = .error "KeyError: outcome"
    ∧ load_saved_props .unparseable = ⟨[], []⟩
    ∧ update_outcomes f (load_saved_props .unparseable)
        = .ok (load_saved_props .unparseable)
    ∧ load_saved_props .absent = ⟨SAVED_PROPS_COLUMNS, []⟩
    ∧ update_outcomes f (load_saved_props .absent) = .ok (load_saved_props .absent) := by
  refine ⟨?_, rfl, rfl, rfl, rfl⟩
  unfold update_outcomes
  rw [if_neg (by simpa using h1), if_pos h2]

/-- Witness for C9 (amended) at a concrete one-row, one-column ledger. -/
theorem load_saved_props_amended_witness :
    update_outcomes (fun _ _ => Option.none)
        ⟨["stat"], [[("stat", CellVal.vstr "Points")]]⟩
      = .error "KeyError: outcome"
    ∧ load_saved_props .unparseable = ⟨[], []⟩
    ∧ update_outcomes (fun _ _ => Option.none) (load_saved_props .unparseable)
        = .ok (load_saved_props .unparseable)
    ∧ load_saved_props .absent = ⟨SAVED_PROPS_COLUMNS, []⟩
    ∧ update_outcomes (fun _ _ => Option.none) (load_saved_props .absent)
        = .ok (load_saved_props .absent) :=
  load_saved_props_amended ⟨["stat"], [[("stat", CellVal.vstr "Points")]]⟩
    (fun _ _ => Option.none) (by simp) (by decide)

/-- C10: `get_active_players` returns `[]` for the empty search term whatever
the API would have answered; and for any term and response it keeps at most
one player per distinct (first_name, last_name) pair — pairwise-distinct
stripped-name keys, in API order (a sublist of the response) — namely the
first record in API order for each key, and drops no key. -/
theorem get_active_players_spec (term : String) (resp : List Player)
    (hterm : term ≠ "") :
    (∀ r : List Player, get_active_players "" r = [])
    ∧ (get_active_players term resp).Pairwise (fun p q => playerKey p ≠ playerKey q)
    ∧ (∀ p ∈ get_active_players term resp,
        resp.find? (fun q => playerKey q == playerKey p) = some p)
    ∧ (∀ q ∈ resp, ∃ p ∈ get_active_players term resp, playerKey p = playerKey q)
    ∧ (get_active_players term resp).Sublist resp := by
  have hne : get_active_players term resp = uniqueByName resp := if_neg hterm
  refine ⟨fun r => if_pos rfl, ?_, ?_, ?_, ?_⟩
  · rw [hne]; exact uniqueByName_pairwise resp
  · rw [hne]; exact uniqueByName_find? resp
  · rw [hne]; exact uniqueByName_complete resp
  · rw [hne]; exact uniqueByName_sublist resp

/-- Witness for C10 at a concrete term and response. -/
theorem get_active_players_spec_witness :
    (∀ r : List Player, get_active_players "" r = [])
    ∧ (get_active_players "james" []).Pairwise (fun p q => playerKey p ≠ playerKey q)
    ∧ (∀ p ∈ get_active_players "james" [],
        List.find? (fun q => playerKey q == playerKey p) ([] : List Player) = some p)
    ∧ (∀ q ∈ ([] : List Player),
        ∃ p ∈ get_active_players "james" [], playerKey p = playerKey q)
    ∧ (get_active_players "james" []).Sublist [] :=
  get_active_players_spec "james" [] (by decide)

end App
